import Mathlib

/-!
Verification of the lwesp netconn layer (sequential/blocking connection API
bridging an asynchronous callback-driven transport).  The repository ships
only the doxygen documentation `src/docs/src/_esp_netconn.h` with example
callers; the implementation itself is modelled from the design document
(spec.md), definition by definition, as noted in each doc comment.
-/

namespace EspNetconn

/-- Packet-buffer reference (the external `esp_pbuf_p`), identified by an id. -/
abbrev PbufRef := Nat

/-- Modelled from the spec: the Event Record tagged union placed on a handle's
event queue: `DATA(buffer_ref) | CLOSED | SEND_ACK(bytes_sent)`. -/
inductive EventRecord where
  | data (buf : PbufRef)
  | closed
  | sendAck (bytes : Nat)
deriving DecidableEq, Repr

/-- Modelled from the spec: the per-handle `close_state`
`{OPEN, CLOSE_RECEIVED, CLOSE_CONFIRMED}`, tracking whether a closed-notice
has already been delivered to the event queue. -/
inductive CloseState where
  | opened
  | closeReceived
  | closeConfirmed
deriving DecidableEq, Repr

/-- Connection type (the `esp_netconn_type_t` argument of `esp_netconn_new`). -/
inductive ConnType where
  | tcp
  | udp
  | ssl
deriving DecidableEq, Repr

/-- Result codes of the blocking API (`espr_t`). -/
inductive Espr where
  | espOK
  | espCLOSED
  | espERR
  | espERRMEM
  | espTIMEOUT
deriving DecidableEq, Repr

/-- Modelled from the spec: the Connection Handle (`esp_netconn_t`).
`eventQueue` is the bounded FIFO of event records (front = oldest);
`enqueued` is the append-only history of every record ever enqueued on the
event queue (used to state temporal properties); `closeState` is the
producer-side duplicate-close suppression state; `rxClosed` is the
consumer-side sticky flag set once receive has surfaced the CLOSED record. -/
structure Conn where
  ctype : ConnType
  mboxPresent : Bool
  eventQueue : List EventRecord
  enqueued : List EventRecord
  closeState : CloseState
  rxClosed : Bool
deriving DecidableEq, Repr

/-- Modelled from the spec: the state of the external Async Transport Engine,
as far as this layer can affect it: the log of `send` invocations issued to it
(lengths, in order).  Used to state frame conditions ("no network action",
"without contacting the transport"). -/
structure Transport where
  sendLog : List Nat
deriving DecidableEq, Repr

/-- Modelled from the spec: the allocation environment for `esp_netconn_new`
(handle memory and message-queue creation can each fail with resource
exhaustion). -/
structure AllocEnv where
  connAlloc : Bool
  mboxAlloc : Bool
deriving DecidableEq, Repr

/-- The freshly constructed handle: event queue allocated and empty, state
OPEN, no record ever enqueued, closed indication not yet delivered. -/
def initConn (ty : ConnType) : Conn :=
  { ctype := ty, mboxPresent := true, eventQueue := [], enqueued := [],
    closeState := .opened, rxClosed := false }

/-- Modelled from the spec: `esp_netconn_new` allocates the handle and creates
its event queue (message box); returns the handle, or NULL (`none`) when
handle/queue allocation fails.  No network action is taken: the transport
state is returned unchanged. -/
def esp_netconn_new (ty : ConnType) (env : AllocEnv) (t : Transport) :
    Option Conn × Transport :=
  if env.connAlloc && env.mboxAlloc then (some (initConn ty), t) else (none, t)

/-- Modelled from the spec: the events the Async Transport Engine delivers
through the single registered callback of a handle:
`{DATA(buffer), SEND_DONE, CLOSED}` (CONNECTED/ERROR resolve the one-shot
connect primitive, not the event queue, and are omitted). -/
inductive CbEvent where
  | dataEvt (buf : PbufRef)
  | closedEvt
  | sendDoneEvt (bytes : Nat)
deriving DecidableEq, Repr

/-- Modelled from the spec: the netconn connection callback, the sole producer
of the event queue, executed on the single dispatch context.  While the handle
is OPEN it appends the corresponding record to the event queue; a CLOSED event
moves `close_state` OPEN to CLOSE_RECEIVED (at most once), and after that no
further record is produced (duplicate-close suppression). -/
def cbStep (c : Conn) (e : CbEvent) : Conn :=
  match e with
  | .dataEvt b =>
      if c.closeState = .opened then
        { c with eventQueue := c.eventQueue ++ [.data b],
                 enqueued := c.enqueued ++ [.data b] }
      else c
  | .sendDoneEvt n =>
      if c.closeState = .opened then
        { c with eventQueue := c.eventQueue ++ [.sendAck n],
                 enqueued := c.enqueued ++ [.sendAck n] }
      else c
  | .closedEvt =>
      if c.closeState = .opened then
        { c with eventQueue := c.eventQueue ++ [.closed],
                 enqueued := c.enqueued ++ [.closed],
                 closeState := .closeReceived }
      else c

/-- Run of the dispatch context: the callback processes a sequence of
transport events in order, starting from a given handle state. -/
def runEvents (c : Conn) (es : List CbEvent) : Conn :=
  es.foldl cbStep c

/-- Skip internal records at the front of the event queue until the first
user-visible one: a DATA record yields its buffer, a CLOSED record yields no
buffer; `none` means no user-visible record is queued (receive would block). -/
def drainToEvent : List EventRecord → Option (Option PbufRef × List EventRecord)
  | [] => none
  | .data b :: rest => some (some b, rest)
  | .closed :: rest => some (none, rest)
  | .sendAck _ :: rest => drainToEvent rest

/-- Modelled from the spec: `esp_netconn_receive`.  Returns
`(status?, pbuf out-parameter, updated handle)`.  If the closed indication has
already been surfaced, it returns `espCLOSED` immediately (sticky, without
consulting the queue).  Otherwise it blocks on the event queue (`none` status
models a still-blocked call): a DATA record at the front is returned as
`espOK` with ownership of the buffer transferred to the caller; a CLOSED
record is returned as `espCLOSED` with no buffer and makes the closed state
sticky. -/
def esp_netconn_receive (c : Conn) : Option Espr × Option PbufRef × Conn :=
  if c.rxClosed then (some Espr.espCLOSED, none, c)
  else
    match drainToEvent c.eventQueue with
    | none => (none, none, c)
    | some (some b, rest) =>
        (some Espr.espOK, some b, { c with eventQueue := rest })
    | some (none, rest) =>
        (some Espr.espCLOSED, none, { c with eventQueue := rest, rxClosed := true })

/-- Trace of up to `n` successive receive calls on a handle: each completed
call contributes its `(status, buffer)` pair; the trace stops early only if a
call blocks forever (no further event in this scenario). -/
def receiveTrace : Conn → Nat → List (Espr × Option PbufRef)
  | _, 0 => []
  | c, n + 1 =>
      match esp_netconn_receive c with
      | (some st, ob, c2) => (st, ob) :: receiveTrace c2 n
      | (none, _, _) => []

/-- Modelled from the spec: `esp_netconn_close` requests a graceful shutdown
of the underlying transport; the transport confirms through the callback,
which enqueues the CLOSED record (folded in synchronously here).  Calling
close on an already-closed handle is a no-op success. -/
def esp_netconn_close (c : Conn) : Espr × Conn :=
  if c.closeState = .opened then (Espr.espOK, cbStep c .closedEvt)
  else (Espr.espOK, c)

/-- Modelled from the spec: the transport's confirmation for a write:
not yet arrived (the writer stays blocked), acceptance of `bytes` bytes, or a
fatal send error. -/
inductive SendOutcome where
  | pending
  | accepted (bytes : Nat)
  | fatal (e : Espr)
deriving DecidableEq, Repr

/-- Modelled from the spec: `esp_netconn_write`.  On a handle that is not
OPEN it fails with the closed-connection error without contacting the
transport.  On an OPEN handle it hands the data to the transport send path
(logged on the transport) and blocks until the transport confirms acceptance
(`espOK` with the number of bytes confirmed) or reports a fatal error; a
`none` result models the still-blocked call. -/
def esp_netconn_write (c : Conn) (len : Nat) (t : Transport)
    (o : SendOutcome) : Option (Espr × Nat) × Conn × Transport :=
  if c.closeState = .opened then
    match o with
    | .pending => (none, c, { t with sendLog := t.sendLog ++ [len] })
    | .accepted n => (some (Espr.espOK, n), c, { t with sendLog := t.sendLog ++ [len] })
    | .fatal e => (some (e, 0), c, { t with sendLog := t.sendLog ++ [len] })
  else (some (Espr.espCLOSED, 0), c, t)

/-- Modelled from the spec: the shape of a handle relevant to deletion — its
event queue contents, and (for a listener) the accept queue of still
unaccepted, fully formed child handles, themselves of the same shape. -/
inductive HandleTree where
  | mk (eventQueue : List EventRecord) (acceptQueue : List HandleTree)
deriving Repr

mutual

/-- Modelled from the spec: `esp_netconn_delete`.  Drains the event queue,
releasing every buffered packet buffer, then drains the accept queue,
recursively deleting every still-unaccepted child handle.  The value is the
release log: the buffer references released, in order of release. -/
def esp_netconn_delete : HandleTree → List PbufRef
  | .mk q children => deleteQueueRecords q ++ deleteAcceptQueue children

/-- Drain one event queue record by record, releasing the packet buffer
carried by each DATA record. -/
def deleteQueueRecords : List EventRecord → List PbufRef
  | [] => []
  | .data b :: rest => b :: deleteQueueRecords rest
  | .closed :: rest => deleteQueueRecords rest
  | .sendAck _ :: rest => deleteQueueRecords rest

/-- Drain an accept queue, recursively deleting every unaccepted child. -/
def deleteAcceptQueue : List HandleTree → List PbufRef
  | [] => []
  | c :: cs => esp_netconn_delete c ++ deleteAcceptQueue cs

end

/-- The buffer references a handle holds: those carried by DATA records of
its own event queue, followed by those buffered anywhere below it in its
accept queue (stated declaratively, for comparison with the release log of
`esp_netconn_delete`). -/
def bufferedRefs : HandleTree → List PbufRef
  | .mk q children =>
      (q.filterMap fun r =>
        match r with
        | .data b => some b
        | _ => none)
      ++ (children.attach.map fun c => bufferedRefs c.1).flatten
decreasing_by
  have hm := List.sizeOf_lt_of_mem c.2
  simp only [HandleTree.mk.sizeOf_spec]
  omega

/-- Modelled from the spec: a listening handle — its accept queue holds the
child handles (identified by ids) enqueued by the dispatch context in the
order their connection-established callbacks were processed. -/
structure Listener where
  acceptQueue : List Nat
  listening : Bool
deriving DecidableEq, Repr

/-- A listener right after `listen` succeeded: accept queue allocated and
empty, listening flag set. -/
def initListener : Listener :=
  { acceptQueue := [], listening := true }

/-- Modelled from the spec: the engine-level "new incoming connection"
callback: when a client connects, a fresh fully formed child handle is put at
the back of the listener's accept queue. -/
def serverConnCb (l : Listener) (child : Nat) : Listener :=
  if l.listening then { l with acceptQueue := l.acceptQueue ++ [child] } else l

/-- The dispatch context processes a sequence of connection-established
callbacks in order. -/
def registerChildren (l : Listener) (cs : List Nat) : Listener :=
  cs.foldl serverConnCb l

/-- Modelled from the spec: `esp_netconn_accept` blocks until the accept
queue yields a child handle (`none` models the still-blocked call) and
removes it from the queue. -/
def esp_netconn_accept (l : Listener) : Option Nat × Listener :=
  match l.acceptQueue with
  | [] => (none, l)
  | c :: rest => (some c, { l with acceptQueue := rest })

/-- Trace of up to `n` successive accept calls on a listener: each completed
call contributes the child it returned; the trace stops early only if a call
blocks forever. -/
def acceptTrace : Listener → Nat → List Nat
  | _, 0 => []
  | l, n + 1 =>
      match esp_netconn_accept l with
      | (some c, l2) => c :: acceptTrace l2 n
      | (none, _) => []

/-- C9: receive transfers buffer ownership to the caller exactly when it
returns espOK: a completed call to `esp_netconn_receive` delivers a packet
buffer through the out-parameter if and only if its result status is `espOK`;
on `espCLOSED` (and on a still-blocked call) no buffer is delivered. -/
theorem receive_buffer_iff_ok (c : Conn) :
    (esp_netconn_receive c).1 = some Espr.espOK ↔
      ((esp_netconn_receive c).2.1).isSome := by
  unfold esp_netconn_receive
  split
  · simp
  · split <;> simp

/-- C3: close is idempotent: a second close on an already-closed handle
returns success and changes nothing, and the two calls together enqueue at
most one CLOSED event on the handle's event queue. -/
theorem close_idempotent (c : Conn) :
    (esp_netconn_close c).1 = Espr.espOK ∧
    (esp_netconn_close (esp_netconn_close c).2).1 = Espr.espOK ∧
    (esp_netconn_close (esp_netconn_close c).2).2 = (esp_netconn_close c).2 ∧
    (esp_netconn_close (esp_netconn_close c).2).2.enqueued.count EventRecord.closed
      ≤ c.enqueued.count EventRecord.closed + 1 := by
  unfold esp_netconn_close cbStep
  rcases hcs : c.closeState <;> simp [hcs, List.count_append]

/-- C8: `esp_netconn_new` either returns a handle with its event queue
allocated, or fails when handle/queue allocation fails; in either case it
performs no network action: the transport state is unchanged. -/
theorem new_no_network_action (ty : ConnType) (env : AllocEnv) (t : Transport) :
    (esp_netconn_new ty env t).2 = t ∧
    ((env.connAlloc && env.mboxAlloc) = true →
      (esp_netconn_new ty env t).1 = some (initConn ty) ∧
        (initConn ty).mboxPresent = true) ∧
    ((env.connAlloc && env.mboxAlloc) = false →
      (esp_netconn_new ty env t).1 = none) := by
  unfold esp_netconn_new
  rcases h : env.connAlloc && env.mboxAlloc <;> simp [h, initConn]

/-- Witness for C8 at a concrete input. -/
theorem new_no_network_action_witness :
    (esp_netconn_new ConnType.tcp ⟨true, true⟩ ⟨[]⟩).2 = (⟨[]⟩ : Transport) ∧
    (esp_netconn_new ConnType.tcp ⟨true, true⟩ ⟨[]⟩).1 = some (initConn ConnType.tcp) ∧
    (initConn ConnType.tcp).mboxPresent = true :=
  ⟨(new_no_network_action ConnType.tcp ⟨true, true⟩ ⟨[]⟩).1,
   ((new_no_network_action ConnType.tcp ⟨true, true⟩ ⟨[]⟩).2.1 (by decide)).1,
   ((new_no_network_action ConnType.tcp ⟨true, true⟩ ⟨[]⟩).2.1 (by decide)).2⟩

/-- C10: `esp_netconn_new` signals allocation failure by returning NULL
(`none`), not an error status; a non-NULL handle always has its message
queue initialized (and empty). -/
theorem new_null_iff_alloc_failure (ty : ConnType) (env : AllocEnv) (t : Transport) :
    ((esp_netconn_new ty env t).1 = none ↔ (env.connAlloc && env.mboxAlloc) = false) ∧
    (∀ h, (esp_netconn_new ty env t).1 = some h →
      h.mboxPresent = true ∧ h.eventQueue = []) := by
  unfold esp_netconn_new
  rcases hall : env.connAlloc && env.mboxAlloc <;> simp [hall, initConn]

/-- Witness for C10 at concrete inputs: a failing allocation returns NULL, a
succeeding one returns a handle whose queue is initialized. -/
theorem new_null_iff_alloc_failure_witness :
    ((esp_netconn_new ConnType.tcp ⟨false, true⟩ ⟨[]⟩).1 = none ↔
      (false && true) = false) ∧
    ((initConn ConnType.tcp).mboxPresent = true ∧
      (initConn ConnType.tcp).eventQueue = []) :=
  ⟨(new_null_iff_alloc_failure ConnType.tcp ⟨false, true⟩ ⟨[]⟩).1,
   (new_null_iff_alloc_failure ConnType.tcp ⟨true, true⟩ ⟨[]⟩).2
     (initConn ConnType.tcp) (by rfl)⟩

theorem runEvents_append (c : Conn) (es1 es2 : List CbEvent) :
    runEvents c (es1 ++ es2) = runEvents (runEvents c es1) es2 := by
  simp [runEvents, List.foldl_append]

theorem runEvents_dataEvts (bufs : List PbufRef) :
    ∀ c : Conn, c.closeState = .opened →
      runEvents c (bufs.map CbEvent.dataEvt) =
        { c with eventQueue := c.eventQueue ++ bufs.map EventRecord.data,
                 enqueued := c.enqueued ++ bufs.map EventRecord.data } := by
  induction bufs with
  | nil => intro c hop; simp [runEvents]
  | cons b bs ih =>
      intro c hop
      simp only [List.map_cons, runEvents, List.foldl_cons]
      have hstep : cbStep c (CbEvent.dataEvt b) =
          { c with eventQueue := c.eventQueue ++ [EventRecord.data b],
                   enqueued := c.enqueued ++ [EventRecord.data b] } := by
        simp [cbStep, hop]
      rw [hstep]
      have := ih { c with eventQueue := c.eventQueue ++ [EventRecord.data b],
                          enqueued := c.enqueued ++ [EventRecord.data b] } (by simp [hop])
      simp only [runEvents] at this
      rw [this]
      simp

theorem receiveTrace_sticky (k : Nat) :
    ∀ c : Conn, c.rxClosed = true →
      receiveTrace c k = List.replicate k (Espr.espCLOSED, (none : Option PbufRef)) := by
  induction k with
  | zero => intro c _; simp [receiveTrace]
  | succ n ih =>
      intro c h
      have hr : esp_netconn_receive c = (some Espr.espCLOSED, none, c) := by
        simp [esp_netconn_receive, h]
      simp only [receiveTrace, hr, List.replicate_succ]
      exact congrArg _ (ih c h)

theorem receiveTrace_drain (bufs : List PbufRef) (k : Nat) :
    ∀ c : Conn, c.rxClosed = false →
      c.eventQueue = bufs.map EventRecord.data ++ [EventRecord.closed] →
      receiveTrace c (bufs.length + 1 + k) =
        bufs.map (fun b => (Espr.espOK, some b)) ++
          (Espr.espCLOSED, (none : Option PbufRef)) ::
            List.replicate k (Espr.espCLOSED, none) := by
  induction bufs with
  | nil =>
      intro c hrx hq
      have hr : esp_netconn_receive c =
          (some Espr.espCLOSED, none,
            { c with eventQueue := [], rxClosed := true }) := by
        simp [esp_netconn_receive, hrx, hq, drainToEvent]
      have hlen : ([] : List PbufRef).length + 1 + k = k + 1 := by
        simp; omega
      rw [hlen]
      simp only [receiveTrace, hr]
      rw [receiveTrace_sticky k _ (by simp)]
      simp
  | cons b bs ih =>
      intro c hrx hq
      have hr : esp_netconn_receive c =
          (some Espr.espOK, some b,
            { c with eventQueue := bs.map EventRecord.data ++ [EventRecord.closed] }) := by
        simp [esp_netconn_receive, hrx, hq, drainToEvent]
      have hlen : (b :: bs).length + 1 + k = (bs.length + 1 + k) + 1 := by
        simp [List.length_cons]; omega
      rw [hlen]
      simp only [receiveTrace, hr]
      rw [ih _ (by simp [hrx]) (by simp)]
      simp

/-- C1: if the transport callback delivers N DATA events to a fresh handle
followed by a close, successive receive calls yield exactly the N buffers in
arrival order, then exactly one closed indication, and every receive call
after that returns closed immediately. -/
theorem receive_data_then_closed_sticky (ty : ConnType) (bufs : List PbufRef) (k : Nat) :
    receiveTrace
      (runEvents (initConn ty) (bufs.map CbEvent.dataEvt ++ [CbEvent.closedEvt]))
      (bufs.length + 1 + k) =
    bufs.map (fun b => (Espr.espOK, some b)) ++
      (Espr.espCLOSED, (none : Option PbufRef)) ::
        List.replicate k (Espr.espCLOSED, none) := by
  have hrun : runEvents (initConn ty) (bufs.map CbEvent.dataEvt ++ [CbEvent.closedEvt]) =
      { ctype := ty, mboxPresent := true,
        eventQueue := bufs.map EventRecord.data ++ [EventRecord.closed],
        enqueued := bufs.map EventRecord.data ++ [EventRecord.closed],
        closeState := .closeReceived, rxClosed := false } := by
    rw [runEvents_append, runEvents_dataEvts bufs (initConn ty) (by simp [initConn])]
    simp [runEvents, cbStep, initConn]
  rw [hrun]
  exact receiveTrace_drain bufs k _ (by simp) (by simp)

/-- Producer-side invariant tying `close_state` to the enqueue history: while
the handle is OPEN no CLOSED record was ever enqueued; once it is not OPEN,
the history ends in its unique CLOSED record. -/
def ConnInv (c : Conn) : Prop :=
  (c.closeState = .opened ∧ EventRecord.closed ∉ c.enqueued) ∨
  (c.closeState ≠ .opened ∧
    ∃ pre, c.enqueued = pre ++ [EventRecord.closed] ∧ EventRecord.closed ∉ pre)

theorem connInv_init (ty : ConnType) : ConnInv (initConn ty) := by
  left; simp [initConn]

theorem connInv_step (c : Conn) (e : CbEvent) (h : ConnInv c) :
    ConnInv (cbStep c e) := by
  rcases h with ⟨hop, hnm⟩ | ⟨hne, pre, heq, hpre⟩
  · cases e with
    | dataEvt b =>
        left
        refine ⟨by simp [cbStep, hop], ?_⟩
        simp [cbStep, hop]
        exact hnm
    | sendDoneEvt n =>
        left
        refine ⟨by simp [cbStep, hop], ?_⟩
        simp [cbStep, hop]
        exact hnm
    | closedEvt =>
        right
        refine ⟨by simp [cbStep, hop], c.enqueued, ?_, hnm⟩
        simp [cbStep, hop]
  · have hc : ∀ e2, cbStep c e2 = c := by
      intro e2
      cases e2 <;> simp [cbStep, hne]
    rw [hc e]
    exact Or.inr ⟨hne, pre, heq, hpre⟩

theorem connInv_run (es : List CbEvent) :
    ∀ c : Conn, ConnInv c → ConnInv (runEvents c es) := by
  induction es with
  | nil => intro c h; simpa [runEvents] using h
  | cons e es2 ih =>
      intro c h
      simp only [runEvents, List.foldl_cons]
      exact ih (cbStep c e) (connInv_step c e h)

/-- C2: in every state reachable by the dispatch context from a fresh handle,
once a CLOSED record sits at position `i` of the enqueue history, no DATA and
no SEND_ACK record is ever enqueued at any later position `j`: CLOSED is the
last record of the handle's event queue. -/
theorem closed_is_last_record (ty : ConnType) (es : List CbEvent)
    (i j : Nat) (b n : Nat) (hij : i < j)
    (hi : (runEvents (initConn ty) es).enqueued.get? i = some EventRecord.closed) :
    (runEvents (initConn ty) es).enqueued.get? j ≠ some (EventRecord.data b) ∧
    (runEvents (initConn ty) es).enqueued.get? j ≠ some (EventRecord.sendAck n) := by
  have hinv := connInv_run es (initConn ty) (connInv_init ty)
  rcases hinv with ⟨_, hnm⟩ | ⟨_, pre, heq, hpre⟩
  · exact absurd (List.get?_mem hi) hnm
  · have hilen : i < (runEvents (initConn ty) es).enqueued.length := by
      by_contra hge
      rw [List.get?_eq_none.mpr (Nat.le_of_not_lt hge)] at hi
      exact Option.noConfusion hi
    have hipre : ¬ i < pre.length := by
      intro hlt
      apply hpre
      have : (runEvents (initConn ty) es).enqueued.get? i = pre.get? i := by
        rw [heq]
        exact List.get?_append hlt
      rw [this] at hi
      exact List.get?_mem hi
    have hieq : i = pre.length := by
      rw [heq, List.length_append, List.length_singleton] at hilen
      omega
    have hjnone : (runEvents (initConn ty) es).enqueued.get? j = none := by
      apply List.get?_eq_none.mpr
      rw [heq, List.length_append, List.length_singleton]
      omega
    rw [hjnone]
    exact ⟨Option.noConfusion, Option.noConfusion⟩

/-- Witness for C2 at a concrete run: one DATA event then a CLOSED event;
the CLOSED record at position 1 of the history has nothing after it. -/
theorem closed_is_last_record_witness :
    (1 : Nat) < 2 ∧
    (runEvents (initConn ConnType.tcp)
      [CbEvent.dataEvt 5, CbEvent.closedEvt]).enqueued.get? 1 =
        some EventRecord.closed ∧
    ((runEvents (initConn ConnType.tcp)
        [CbEvent.dataEvt 5, CbEvent.closedEvt]).enqueued.get? 2 ≠
          some (EventRecord.data 0) ∧
     (runEvents (initConn ConnType.tcp)
        [CbEvent.dataEvt 5, CbEvent.closedEvt]).enqueued.get? 2 ≠
          some (EventRecord.sendAck 0)) :=
  ⟨by decide, by decide,
   closed_is_last_record ConnType.tcp [CbEvent.dataEvt 5, CbEvent.closedEvt]
     1 2 0 0 (by decide) (by decide)⟩

theorem close_not_opened (c : Conn) :
    (esp_netconn_close c).2.closeState ≠ CloseState.opened := by
  rcases hcs : c.closeState <;> simp [esp_netconn_close, cbStep, hcs]

/-- C4: once close has returned on a handle, every write on it fails with the
closed-connection error and leaves the transport untouched (no send issued),
while receive still drains a DATA record queued ahead of the close before
surfacing the closed indication. -/
theorem write_after_close_fails (c : Conn) (len : Nat) (t : Transport)
    (o : SendOutcome) (b : PbufRef) (rest : List EventRecord)
    (hrx : c.rxClosed = false)
    (hq : c.eventQueue = EventRecord.data b :: rest) :
    (esp_netconn_write (esp_netconn_close c).2 len t o).1 =
      some (Espr.espCLOSED, 0) ∧
    (esp_netconn_write (esp_netconn_close c).2 len t o).2.2 = t ∧
    (esp_netconn_receive (esp_netconn_close c).2).1 = some Espr.espOK ∧
    (esp_netconn_receive (esp_netconn_close c).2).2.1 = some b := by
  rcases hcs : c.closeState <;>
    simp [esp_netconn_close, cbStep, esp_netconn_write, esp_netconn_receive,
      hcs, hrx, hq, drainToEvent]

/-- Witness for C4: a handle holding one queued DATA record is closed; the
write fails without a send, the receive still returns the queued buffer. -/
theorem write_after_close_fails_witness :
    ((⟨ConnType.tcp, true, [EventRecord.data 7], [EventRecord.data 7],
        CloseState.opened, false⟩ : Conn).rxClosed = false ∧
     (⟨ConnType.tcp, true, [EventRecord.data 7], [EventRecord.data 7],
        CloseState.opened, false⟩ : Conn).eventQueue =
          EventRecord.data 7 :: []) ∧
    ((esp_netconn_write
        (esp_netconn_close ⟨ConnType.tcp, true, [EventRecord.data 7],
          [EventRecord.data 7], CloseState.opened, false⟩).2 3 ⟨[]⟩
        (SendOutcome.accepted 3)).1 = some (Espr.espCLOSED, 0) ∧
     (esp_netconn_write
        (esp_netconn_close ⟨ConnType.tcp, true, [EventRecord.data 7],
          [EventRecord.data 7], CloseState.opened, false⟩).2 3 ⟨[]⟩
        (SendOutcome.accepted 3)).2.2 = (⟨[]⟩ : Transport) ∧
     (esp_netconn_receive
        (esp_netconn_close ⟨ConnType.tcp, true, [EventRecord.data 7],
          [EventRecord.data 7], CloseState.opened, false⟩).2).1 =
            some Espr.espOK ∧
     (esp_netconn_receive
        (esp_netconn_close ⟨ConnType.tcp, true, [EventRecord.data 7],
          [EventRecord.data 7], CloseState.opened, false⟩).2).2.1 = some 7) :=
  ⟨⟨rfl, rfl⟩,
   write_after_close_fails
     ⟨ConnType.tcp, true, [EventRecord.data 7], [EventRecord.data 7],
       CloseState.opened, false⟩ 3 ⟨[]⟩ (SendOutcome.accepted 3) 7 [] rfl rfl⟩

/-- C7: on an open handle, write stays blocked exactly as long as the
transport has not yet confirmed the send; when the transport confirms
acceptance of `n` bytes it returns success with the `n` bytes confirmed, and
when the transport reports a fatal error it returns that error. -/
theorem write_blocks_until_confirmed (c : Conn) (len : Nat) (t : Transport)
    (o : SendOutcome) (n : Nat) (e : Espr)
    (hop : c.closeState = CloseState.opened) :
    ((esp_netconn_write c len t o).1 = none ↔ o = SendOutcome.pending) ∧
    (o = SendOutcome.accepted n →
      (esp_netconn_write c len t o).1 = some (Espr.espOK, n)) ∧
    (o = SendOutcome.fatal e →
      (esp_netconn_write c len t o).1 = some (e, 0)) := by
  rcases o <;> simp [esp_netconn_write, hop]

/-- Witness for C7: on a fresh open handle whose send is confirmed with 4
bytes, write returns success with 4 bytes confirmed. -/
theorem write_blocks_until_confirmed_witness :
    (initConn ConnType.tcp).closeState = CloseState.opened ∧
    (((esp_netconn_write (initConn ConnType.tcp) 4 ⟨[]⟩
        (SendOutcome.accepted 4)).1 = none ↔
          SendOutcome.accepted 4 = SendOutcome.pending) ∧
     (SendOutcome.accepted 4 = SendOutcome.accepted 4 →
       (esp_netconn_write (initConn ConnType.tcp) 4 ⟨[]⟩
         (SendOutcome.accepted 4)).1 = some (Espr.espOK, 4)) ∧
     (SendOutcome.accepted 4 = SendOutcome.fatal Espr.espERR →
       (esp_netconn_write (initConn ConnType.tcp) 4 ⟨[]⟩
         (SendOutcome.accepted 4)).1 = some (Espr.espERR, 0))) :=
  ⟨rfl, write_blocks_until_confirmed (initConn ConnType.tcp) 4 ⟨[]⟩
    (SendOutcome.accepted 4) 4 Espr.espERR rfl⟩

theorem registerChildren_listening (cs : List Nat) :
    ∀ l : Listener, l.listening = true →
      registerChildren l cs = { acceptQueue := l.acceptQueue ++ cs, listening := true } := by
  induction cs with
  | nil =>
      intro l hl
      cases l
      subst hl
      simp [registerChildren]
  | cons c cs2 ih =>
      intro l hl
      simp only [registerChildren, List.foldl_cons]
      have hstep : serverConnCb l c =
          { l with acceptQueue := l.acceptQueue ++ [c] } := by
        simp [serverConnCb, hl]
      rw [hstep]
      have := ih { l with acceptQueue := l.acceptQueue ++ [c] } (by simp [hl])
      simp only [registerChildren] at this
      rw [this]
      simp

theorem acceptTrace_exact (q : List Nat) :
    ∀ l : Listener, l.acceptQueue = q → acceptTrace l q.length = q := by
  induction q with
  | nil => intro l _; simp [acceptTrace]
  | cons c cs ih =>
      intro l hq
      have hr : esp_netconn_accept l = (some c, { l with acceptQueue := cs }) := by
        simp [esp_netconn_accept, hq]
      simp only [List.length_cons, acceptTrace, hr]
      rw [ih { l with acceptQueue := cs } rfl]

/-- C6: successive accept calls on a listener return the child handles in
exactly the order the dispatch context processed their
connection-established callbacks: none reordered, none omitted, none
returned twice. -/
theorem accept_in_arrival_order (cs : List Nat) :
    acceptTrace (registerChildren initListener cs) cs.length = cs := by
  rw [registerChildren_listening cs initListener (by simp [initListener])]
  exact acceptTrace_exact cs _ (by simp [initListener])

theorem deleteQueueRecords_eq_filterMap (q : List EventRecord) :
    deleteQueueRecords q =
      q.filterMap fun r =>
        match r with
        | .data b => some b
        | _ => none := by
  induction q with
  | nil => simp [deleteQueueRecords]
  | cons r rest ih =>
      cases r <;> simp [deleteQueueRecords, List.filterMap_cons, ih]

mutual

theorem delete_eq_bufferedRefs : ∀ h : HandleTree,
    esp_netconn_delete h = bufferedRefs h
  | .mk q children => by
      rw [esp_netconn_delete, bufferedRefs, deleteQueueRecords_eq_filterMap]
      congr 1
      rw [List.attach_map_coe]
      exact deleteAcceptQueue_eq_flatten children

theorem deleteAcceptQueue_eq_flatten : ∀ cs : List HandleTree,
    deleteAcceptQueue cs = (cs.map bufferedRefs).flatten
  | [] => by simp [deleteAcceptQueue]
  | c :: cs => by
      rw [deleteAcceptQueue, delete_eq_bufferedRefs c,
        deleteAcceptQueue_eq_flatten cs]
      simp

end

/-- C5: deleting a handle whose queues still hold unread DATA records and
unaccepted children releases every buffered packet-buffer reference exactly
once (given the references are pairwise distinct): each buffered reference
appears exactly once in the release log, and nothing else is released. -/
theorem delete_releases_each_buffer_once (h : HandleTree) (b : PbufRef)
    (hnd : (bufferedRefs h).Nodup) :
    (b ∈ bufferedRefs h → (esp_netconn_delete h).count b = 1) ∧
    (b ∉ bufferedRefs h → (esp_netconn_delete h).count b = 0) := by
  constructor
  · intro hb
    rw [delete_eq_bufferedRefs h]
    exact List.count_eq_one_of_mem hnd hb
  · intro hb
    rw [delete_eq_bufferedRefs h]
    exact List.count_eq_zero_of_not_mem hb

/-- Witness for C5: a listener with two queued DATA records and one
unaccepted child holding a third buffer; buffer 1 is released exactly once
and buffer 9 (never buffered) is not released. -/
theorem delete_releases_each_buffer_once_witness :
    ((bufferedRefs (HandleTree.mk
        [EventRecord.data 1, EventRecord.closed, EventRecord.data 2]
        [HandleTree.mk [EventRecord.data 3] []])).Nodup ∧
     1 ∈ bufferedRefs (HandleTree.mk
        [EventRecord.data 1, EventRecord.closed, EventRecord.data 2]
        [HandleTree.mk [EventRecord.data 3] []]) ∧
     9 ∉ bufferedRefs (HandleTree.mk
        [EventRecord.data 1, EventRecord.closed, EventRecord.data 2]
        [HandleTree.mk [EventRecord.data 3] []])) ∧
    (esp_netconn_delete (HandleTree.mk
        [EventRecord.data 1, EventRecord.closed, EventRecord.data 2]
        [HandleTree.mk [EventRecord.data 3] []])).count 1 = 1 ∧
    (esp_netconn_delete (HandleTree.mk
        [EventRecord.data 1, EventRecord.closed, EventRecord.data 2]
        [HandleTree.mk [EventRecord.data 3] []])).count 9 = 0 :=
  ⟨⟨by rw [← delete_eq_bufferedRefs]; decide,
    by rw [← delete_eq_bufferedRefs]; decide,
    by rw [← delete_eq_bufferedRefs]; decide⟩,
   (delete_releases_each_buffer_once
      (HandleTree.mk
        [EventRecord.data 1, EventRecord.closed, EventRecord.data 2]
        [HandleTree.mk [EventRecord.data 3] []]) 1
      (by rw [← delete_eq_bufferedRefs]; decide)).1
      (by rw [← delete_eq_bufferedRefs]; decide),
   (delete_releases_each_buffer_once
      (HandleTree.mk
        [EventRecord.data 1, EventRecord.closed, EventRecord.data 2]
        [HandleTree.mk [EventRecord.data 3] []]) 9
      (by rw [← delete_eq_bufferedRefs]; decide)).2
      (by rw [← delete_eq_bufferedRefs]; decide)⟩

end EspNetconn

